import Mathlib

/-!
Shallow embedding of the lending core of the library-online backend
(src/backend/app): book copies, borrow records, reservations, cart
checkout and the expiry sweeper, with theorems about the invariants and
operation contracts stated in the specification.

Timestamps are modelled as integers (seconds); each occurrence of
datetime.utcnow() in the source is a clock reading passed in as an
explicit parameter.  Database rows are lists of structures; the
SQLAlchemy queries select-by-id / filter / order-by-limit-1 are
translated to List.find? / List.filter / a fold taking the minimum.
-/

/-- Copy status enum from app/models/book_copy.py (CopyStatus). -/
inductive CopyStatus where
  | AVAILABLE
  | BORROWED
  | LOST
deriving Repr, DecidableEq

/-- Borrow record status enum from app/models/book_copy.py (BorrowStatus). -/
inductive BorrowStatus where
  | PENDING
  | ACTIVE
  | RETURNED
  | OVERDUE
  | CANCELLED
deriving Repr, DecidableEq

/-- Reservation status from app/models/reservation.py / app/schemas/reservation.py. -/
inductive ReservationStatus where
  | PENDING
  | FULFILLED
  | CANCELLED
  | EXPIRED
deriving Repr, DecidableEq

/-- A row of the book_copies table (app/models/book_copy.py, BookCopy). -/
structure BookCopy where
  id : Nat
  bookId : Nat
  barcode : Nat
  status : CopyStatus
deriving Repr, DecidableEq

/-- A row of the borrow_records table (app/models/book_copy.py, BorrowRecord). -/
structure BorrowRecord where
  id : Nat
  copyId : Nat
  userId : Nat
  borrowedAt : Int
  dueDate : Int
  returnedAt : Option Int
  status : BorrowStatus
  createdAt : Int
deriving Repr, DecidableEq

/-- A row of the reservations table (app/models/reservation.py, Reservation). -/
structure Reservation where
  id : Nat
  userId : Nat
  bookId : Nat
  status : ReservationStatus
  reservedAt : Int
  expiresAt : Int
  fulfilledAt : Option Int
deriving Repr, DecidableEq

/-- One cart item (app/models/cart.py, CartItem), keyed here by the owning
user since each user has at most one cart. -/
structure CartItem where
  userId : Nat
  bookId : Nat
deriving Repr, DecidableEq

/-- The persistent state the lending core reads and writes: the books,
book_copies, borrow_records, reservations and cart_items tables, plus a
fresh-id source standing for the database primary-key generator. -/
structure LibState where
  books : List Nat
  copies : List BookCopy
  records : List BorrowRecord
  reservations : List Reservation
  cartItems : List CartItem
  nextId : Nat
deriving Repr, DecidableEq

/-- The error outcomes (HTTPException payloads) of the modelled endpoints. -/
inductive ApiError where
  | notFound
  | copyNotAvailable
  | alreadyReturned
  | notPendingRecord
  | cannotFulfill
  | reservationExpired
  | copyAvailable
  | duplicateReservation
  | cartEmpty
  | checkoutFailed (failedBooks : List Nat)
deriving Repr, DecidableEq

/-- timedelta(hours=48) in seconds. -/
def hours48 : Int := 48 * 3600

/-- timedelta(days=14) in seconds. -/
def days14 : Int := 14 * 86400

def CopyStatus.isAvailable : CopyStatus → Bool
  | .AVAILABLE => true
  | _ => false

def BorrowStatus.isPending : BorrowStatus → Bool
  | .PENDING => true
  | _ => false

def BorrowStatus.isActive : BorrowStatus → Bool
  | .ACTIVE => true
  | _ => false

def BorrowStatus.isReturned : BorrowStatus → Bool
  | .RETURNED => true
  | _ => false

/-- A borrow record counts against its copy while PENDING or ACTIVE. -/
def BorrowStatus.isNonTerminal : BorrowStatus → Bool
  | .PENDING => true
  | .ACTIVE => true
  | _ => false

def ReservationStatus.isPending : ReservationStatus → Bool
  | .PENDING => true
  | _ => false

/-- Reservation.is_expired property (app/models/reservation.py):
status == PENDING and utcnow() > expires_at. -/
def Reservation.isExpiredAt (r : Reservation) (now : Int) : Bool :=
  r.status.isPending && decide (r.expiresAt < now)

/-- UPDATE book_copies SET ... WHERE id = cid (ORM row mutation). -/
def updateCopy (copies : List BookCopy) (cid : Nat) (f : BookCopy → BookCopy) :
    List BookCopy :=
  copies.map fun c => if c.id = cid then f c else c

/-- UPDATE borrow_records SET ... WHERE id = rid (ORM row mutation). -/
def updateRecord (records : List BorrowRecord) (rid : Nat)
    (f : BorrowRecord → BorrowRecord) : List BorrowRecord :=
  records.map fun r => if r.id = rid then f r else r

/-- UPDATE reservations SET ... WHERE id = rid (ORM row mutation). -/
def updateReservation (reservations : List Reservation) (rid : Nat)
    (f : Reservation → Reservation) : List Reservation :=
  reservations.map fun r => if r.id = rid then f r else r

/-- Number of PENDING/ACTIVE borrow records referencing a given copy. -/
def nonTerminalCount (records : List BorrowRecord) (cid : Nat) : Nat :=
  records.countP fun r => r.copyId == cid && r.status.isNonTerminal

/-- select count(*) where book_id = bookId and status = AVAILABLE. -/
def availableCount (S : LibState) (bookId : Nat) : Nat :=
  S.copies.countP fun c => c.bookId == bookId && c.status.isAvailable

/-- PUT /book-copies/{copy_id} (app/api/v1/book_copies.py, update_book_copy):
fetch the copy by id and apply the fields set in the request body
(model_dump(exclude_unset=True)); no guard relates the new status to
existing borrow records. -/
def update_book_copy (S : LibState) (copyId : Nat) (newStatus : Option CopyStatus)
    (newBarcode : Option Nat) : LibState × Except ApiError BookCopy :=
  match S.copies.find? (fun c => c.id == copyId) with
  | none => (S, .error .notFound)
  | some c =>
    let c2 := { c with status := newStatus.getD c.status,
                       barcode := newBarcode.getD c.barcode }
    ({ S with copies := updateCopy S.copies copyId (fun _ => c2) }, .ok c2)

/-- POST /book-copies/{copy_id}/borrow (app/api/v1/book_copies.py,
borrow_book): requires the copy to be AVAILABLE, creates an ACTIVE borrow
record with the due_date from the request body, flips the copy to
BORROWED.  now is the utcnow() reading used for the record defaults. -/
def borrow_book (S : LibState) (copyId userId : Nat) (dueDate now : Int) :
    LibState × Except ApiError BorrowRecord :=
  match S.copies.find? (fun c => c.id == copyId) with
  | none => (S, .error .notFound)
  | some c =>
    if c.status.isAvailable then
      let newRec : BorrowRecord :=
        { id := S.nextId, copyId := copyId, userId := userId,
          borrowedAt := now, dueDate := dueDate, returnedAt := none,
          status := .ACTIVE, createdAt := now }
      ({ S with
          copies := updateCopy S.copies copyId (fun x => { x with status := .BORROWED }),
          records := S.records ++ [newRec],
          nextId := S.nextId + 1 }, .ok newRec)
    else (S, .error .copyNotAvailable)

/-- Running minimum by reserved_at (first in row order on ties). -/
def minResFold (acc : Option Reservation) (r : Reservation) : Option Reservation :=
  match acc with
  | none => some r
  | some b => if r.reservedAt < b.reservedAt then some r else some b

/-- select ... where book_id = bookId and status = PENDING
order_by(reserved_at.asc()).limit(1): the PENDING reservation for the book
with the smallest reserved_at (first in row order on ties). -/
def firstPendingReservation (rs : List Reservation) (bookId : Nat) :
    Option Reservation :=
  (rs.filter fun r => r.bookId == bookId && r.status.isPending).foldl
    minResFold none

/-- POST /book-copies/{copy_id}/return (app/api/v1/book_copies.py,
return_book): finds the callers ACTIVE borrow record for the copy, marks
it RETURNED, frees the copy, then looks at the single oldest PENDING
reservation for the book and marks it FULFILLED unless it is expired
(an expired head is left untouched). -/
def return_book_by_copy (S : LibState) (copyId userId : Nat) (now : Int) :
    LibState × Except ApiError BorrowRecord :=
  match S.copies.find? (fun c => c.id == copyId) with
  | none => (S, .error .notFound)
  | some c =>
    match S.records.find?
        (fun r => r.copyId == copyId && r.userId == userId && r.status.isActive) with
    | none => (S, .error .notFound)
    | some r0 =>
      let records2 := updateRecord S.records r0.id
        (fun r => { r with returnedAt := some now, status := .RETURNED })
      let copies2 := updateCopy S.copies copyId
        (fun x => { x with status := .AVAILABLE })
      let reservations2 :=
        match firstPendingReservation S.reservations c.bookId with
        | none => S.reservations
        | some res =>
          if res.isExpiredAt now then S.reservations
          else updateReservation S.reservations res.id
            (fun x => { x with status := .FULFILLED, fulfilledAt := some now })
      ({ S with copies := copies2, records := records2,
                reservations := reservations2 },
       .ok { r0 with returnedAt := some now, status := .RETURNED })

/-- POST /borrowing/{record_id}/return (app/api/v1/borrowing.py,
return_book): rejects only records already RETURNED; marks the record
RETURNED, sets its copy to AVAILABLE, and does not touch reservations. -/
def return_book_by_record (S : LibState) (recordId : Nat) (now : Int) :
    LibState × Except ApiError Unit :=
  match S.records.find? (fun r => r.id == recordId) with
  | none => (S, .error .notFound)
  | some r0 =>
    if r0.status.isReturned then (S, .error .alreadyReturned)
    else
      ({ S with
          records := updateRecord S.records recordId
            (fun r => { r with status := .RETURNED, returnedAt := some now }),
          copies := updateCopy S.copies r0.copyId
            (fun c => { c with status := .AVAILABLE }) }, .ok ())

/-- POST /borrowing/{record_id}/confirm-pickup (app/api/v1/borrowing.py,
confirm_pickup): PENDING record becomes ACTIVE, borrowed_at is reset to
the pickup time. -/
def confirm_pickup (S : LibState) (recordId : Nat) (now : Int) :
    LibState × Except ApiError Unit :=
  match S.records.find? (fun r => r.id == recordId) with
  | none => (S, .error .notFound)
  | some r0 =>
    if r0.status.isPending then
      let records2 := updateRecord S.records recordId
        (fun r => { r with status := .ACTIVE, borrowedAt := now })
      ({ S with records := records2 }, .ok ())
    else (S, .error .notPendingRecord)

/-- POST /reservations/ (app/api/v1/reservations.py, create_reservation).
The source calls datetime.utcnow() twice when building the row
(reserved_at = utcnow(); expires_at = utcnow() + 48h), so the two clock
readings are separate parameters t1 and t2, in source order. -/
def create_reservation (S : LibState) (userId bookId : Nat) (t1 t2 : Int) :
    LibState × Except ApiError Reservation :=
  if S.books.contains bookId then
    if S.reservations.any
        (fun r => r.userId == userId && r.bookId == bookId && r.status.isPending) then
      (S, .error .duplicateReservation)
    else if 0 < availableCount S bookId then
      (S, .error .copyAvailable)
    else
      let newRes : Reservation :=
        { id := S.nextId, userId := userId, bookId := bookId,
          status := .PENDING, reservedAt := t1, expiresAt := t2 + hours48,
          fulfilledAt := none }
      ({ S with reservations := S.reservations ++ [newRes],
                nextId := S.nextId + 1 }, .ok newRes)
  else (S, .error .notFound)

/-- POST /reservations/{reservation_id}/fulfill (app/api/v1/reservations.py,
fulfill_reservation): on a PENDING but expired reservation the source
commits the EXPIRED status and then raises, so that error path returns a
changed state; the other error paths leave the state unchanged. -/
def fulfill_reservation (S : LibState) (resId : Nat) (now : Int) :
    LibState × Except ApiError Reservation :=
  match S.reservations.find? (fun r => r.id == resId) with
  | none => (S, .error .notFound)
  | some r0 =>
    if r0.status.isPending then
      if r0.isExpiredAt now then
        let reservations2 := updateReservation S.reservations resId
          (fun r => { r with status := .EXPIRED })
        ({ S with reservations := reservations2 }, .error .reservationExpired)
      else
        let reservations2 := updateReservation S.reservations resId
          (fun r => { r with status := .FULFILLED, fulfilledAt := some now })
        ({ S with reservations := reservations2 },
         .ok { r0 with status := .FULFILLED, fulfilledAt := some now })
    else (S, .error .cannotFulfill)

/-- The sweep predicate of _cancel_expired_pickups_in_session
(app/services/scheduler.py): status PENDING and created_at less than or
equal to now - 48h (the source comparison is created_at <= expiration_time). -/
def sweepExpired (r : BorrowRecord) (cutoff : Int) : Bool :=
  r.status.isPending && decide (r.createdAt ≤ cutoff)

/-- One iteration of the sweep loop: cancel the record and set its copy
to AVAILABLE (an unconditional UPDATE by copy id). -/
def sweepOne (S : LibState) (r0 : BorrowRecord) : LibState :=
  { S with
      records := updateRecord S.records r0.id (fun r => { r with status := .CANCELLED }),
      copies := updateCopy S.copies r0.copyId (fun c => { c with status := .AVAILABLE }) }

/-- _cancel_expired_pickups_in_session (app/services/scheduler.py): fetch
all PENDING records with created_at <= now - 48h; if none, return with no
change; otherwise loop over them cancelling each and freeing its copy. -/
def check_expired_pickups (S : LibState) (now : Int) : LibState :=
  let cutoff := now - hours48
  let expired := S.records.filter (fun r => sweepExpired r cutoff)
  if expired.isEmpty then S
  else expired.foldl sweepOne S

/-- Accumulator of the checkout loop in app/api/v1/cart.py: the working
session state, the borrow records created so far, and the failed books. -/
structure CheckoutAcc where
  state : LibState
  newRecs : List BorrowRecord
  failed : List Nat
deriving Repr, DecidableEq

/-- One iteration of the checkout loop: find an AVAILABLE copy of the
book (limit 1); if none, record the failure and continue; otherwise
create a PENDING borrow record and flip the copy to BORROWED. -/
def checkoutStep (userId : Nat) (dueDate now : Int) (acc : CheckoutAcc)
    (bookId : Nat) : CheckoutAcc :=
  match acc.state.copies.find? (fun c => c.bookId == bookId && c.status.isAvailable) with
  | none => { acc with failed := acc.failed ++ [bookId] }
  | some copy =>
    let newRec : BorrowRecord :=
      { id := acc.state.nextId, copyId := copy.id, userId := userId,
        borrowedAt := now, dueDate := dueDate, returnedAt := none,
        status := .PENDING, createdAt := now }
    { state := { acc.state with
        copies := updateCopy acc.state.copies copy.id
          (fun x => { x with status := .BORROWED }),
        records := acc.state.records ++ [newRec],
        nextId := acc.state.nextId + 1 },
      newRecs := acc.newRecs ++ [newRec],
      failed := acc.failed }

/-- POST /cart/checkout (app/api/v1/cart.py, checkout_cart): processes
every cart item of the user; if any book failed, the whole transaction is
rolled back (the original state is kept) and the failures are reported;
otherwise the cart is cleared and the batch is committed.  A missing
due_date defaults to now + 14 days. -/
def checkout_cart (S : LibState) (userId : Nat) (dueDateReq : Option Int)
    (now : Int) : LibState × Except ApiError (List BorrowRecord) :=
  let items := (S.cartItems.filter (fun it => it.userId == userId)).map (fun it => it.bookId)
  if items.isEmpty then (S, .error .cartEmpty)
  else
    let dueDate := dueDateReq.getD (now + days14)
    let acc := items.foldl (checkoutStep userId dueDate now)
      { state := S, newRecs := [], failed := [] }
    if acc.failed.isEmpty then
      ({ acc.state with
          cartItems := acc.state.cartItems.filter (fun it => !(it.userId == userId)) },
       .ok acc.newRecs)
    else (S, .error (.checkoutFailed acc.failed))

/-- The copy/loan consistency invariant from the specification: a copy is
BORROWED exactly when exactly one PENDING/ACTIVE borrow record references
it, and a non-BORROWED copy is referenced by no PENDING/ACTIVE record. -/
def CopyLoanInv (S : LibState) : Prop :=
  ∀ c ∈ S.copies, nonTerminalCount S.records c.id =
    (if c.status = CopyStatus.BORROWED then 1 else 0)

/-- Database well-formedness: primary keys are unique and the fresh-id
source is indeed fresh. -/
def DBWF (S : LibState) : Prop :=
  (S.copies.map (fun c => c.id)).Nodup ∧
  (S.records.map (fun r => r.id)).Nodup ∧
  (S.reservations.map (fun r => r.id)).Nodup ∧
  (∀ r ∈ S.records, r.id < S.nextId) ∧
  (∀ r ∈ S.reservations, r.id < S.nextId)

instance (S : LibState) : Decidable (CopyLoanInv S) := by
  unfold CopyLoanInv; infer_instance

instance (S : LibState) : Decidable (DBWF S) := by
  unfold DBWF; infer_instance

/-! Generic lemmas about update-by-id maps and counting. -/

/-- If a predicate is insensitive to the update applied to rows with the
given id, an update-by-id map leaves its count unchanged. -/
theorem countP_update_of_invariant {A : Type} (l : List A) (idf : A → Nat)
    (i : Nat) (g : A → A) (p : A → Bool)
    (h : ∀ a ∈ l, idf a = i → p (g a) = p a) :
    (l.map fun a => if idf a = i then g a else a).countP p = l.countP p := by
  rw [List.countP_map]
  refine List.countP_congr ?_
  intro a ha
  by_cases hc : idf a = i
  · simp only [Function.comp_apply, hc, if_pos, h a ha hc]
  · simp only [Function.comp_apply, hc, if_neg, not_false_iff]

/-- A list with count one for a predicate has a unique member satisfying it. -/
theorem countP_unique_mem {A : Type} {l : List A} {p : A → Bool}
    (hcount : l.countP p = 1) {a b : A}
    (ha : a ∈ l) (hpa : p a = true) (hb : b ∈ l) (hpb : p b = true) : a = b := by
  rw [List.countP_eq_length_filter] at hcount
  obtain ⟨c, hc⟩ := List.length_eq_one.mp hcount
  have ha2 : a ∈ l.filter p := List.mem_filter.mpr ⟨ha, hpa⟩
  have hb2 : b ∈ l.filter p := List.mem_filter.mpr ⟨hb, hpb⟩
  rw [hc, List.mem_singleton] at ha2 hb2
  rw [ha2, hb2]

/-- Updating the unique row satisfying a predicate so that it no longer
satisfies it brings the count to zero. -/
theorem countP_update_killed {A : Type} {l : List A} (idf : A → Nat) (i : Nat)
    (g : A → A) (p : A → Bool) (hg : ∀ a, p (g a) = false)
    {a0 : A} (ha0 : a0 ∈ l) (hid : idf a0 = i) (hp0 : p a0 = true)
    (hcount : l.countP p = 1) :
    (l.map fun a => if idf a = i then g a else a).countP p = 0 := by
  rw [List.countP_map, List.countP_eq_zero]
  intro a ha
  by_cases hc : idf a = i
  · simp only [Function.comp_apply, hc, if_pos, hg, Bool.false_eq_true,
      not_false_iff]
  · simp only [Function.comp_apply, hc, if_neg, not_false_iff]
    intro hpa
    exact hc (countP_unique_mem hcount ha hpa ha0 hp0 ▸ hid)

/-- An update-by-id map that preserves the id projection leaves the list
of ids unchanged. -/
theorem map_id_update {A : Type} (l : List A) (idf : A → Nat) (i : Nat)
    (g : A → A) (hg : ∀ a, idf (g a) = idf a) :
    (l.map fun a => if idf a = i then g a else a).map idf = l.map idf := by
  rw [List.map_map]
  refine List.map_congr_left ?_
  intro a _
  by_cases hc : idf a = i
  · simp only [Function.comp_apply, hc, if_pos, hg]
  · simp only [Function.comp_apply, hc, if_neg, not_false_iff]

/-- Two members of a list with duplicate-free ids and equal ids are equal. -/
theorem eq_of_mem_of_id_eq {A : Type} {l : List A} {idf : A → Nat}
    (hnodup : (l.map idf).Nodup) {a b : A} (ha : a ∈ l) (hb : b ∈ l)
    (h : idf a = idf b) : a = b :=
  List.inj_on_of_nodup_map hnodup ha hb h

theorem updateCopy_map_id (copies : List BookCopy) (cid : Nat)
    (f : BookCopy → BookCopy) (hf : ∀ c, (f c).id = c.id) :
    (updateCopy copies cid f).map (fun c => c.id) = copies.map (fun c => c.id) :=
  map_id_update copies (fun c => c.id) cid f hf

theorem updateRecord_map_id (records : List BorrowRecord) (rid : Nat)
    (f : BorrowRecord → BorrowRecord) (hf : ∀ r, (f r).id = r.id) :
    (updateRecord records rid f).map (fun r => r.id) = records.map (fun r => r.id) :=
  map_id_update records (fun r => r.id) rid f hf

theorem updateReservation_map_id (reservations : List Reservation) (rid : Nat)
    (f : Reservation → Reservation) (hf : ∀ r, (f r).id = r.id) :
    (updateReservation reservations rid f).map (fun r => r.id) =
      reservations.map (fun r => r.id) :=
  map_id_update reservations (fun r => r.id) rid f hf

/-! Preservation of the copy/loan invariant by the lending operations. -/

theorem nonTerminalCount_append_single (records : List BorrowRecord)
    (r : BorrowRecord) (cid : Nat) :
    nonTerminalCount (records ++ [r]) cid = nonTerminalCount records cid +
      (if r.copyId == cid && r.status.isNonTerminal then 1 else 0) := by
  simp [nonTerminalCount, List.countP_append, List.countP_cons]

/-- Borrowing an AVAILABLE copy (flip to BORROWED, append one new
PENDING/ACTIVE record for it) preserves the per-copy count equation. -/
theorem nonTerminal_borrow_step
    {copies : List BookCopy} {records : List BorrowRecord}
    (hnd : (copies.map fun c => c.id).Nodup)
    (hinv : ∀ c ∈ copies, nonTerminalCount records c.id =
      (if c.status = CopyStatus.BORROWED then 1 else 0))
    {c0 : BookCopy} (hc0 : c0 ∈ copies) (hav : c0.status = CopyStatus.AVAILABLE)
    {newRec : BorrowRecord} (hcid : newRec.copyId = c0.id)
    (hnt : newRec.status.isNonTerminal = true) :
    ∀ c ∈ updateCopy copies c0.id (fun x => { x with status := CopyStatus.BORROWED }),
      nonTerminalCount (records ++ [newRec]) c.id =
        (if c.status = CopyStatus.BORROWED then 1 else 0) := by
  intro c hc
  unfold updateCopy at hc
  rw [List.mem_map] at hc
  obtain ⟨a, ha, hfa⟩ := hc
  by_cases hidc : a.id = c0.id
  · have haeq : a = c0 := eq_of_mem_of_id_eq hnd ha hc0 hidc
    have hcval : c = { c0 with status := CopyStatus.BORROWED } := by
      rw [← hfa, haeq, if_pos rfl]
    have h0 : nonTerminalCount records c0.id = 0 := by
      have h := hinv c0 hc0
      rw [hav] at h
      simpa using h
    rw [hcval, nonTerminalCount_append_single]
    simp [h0, hcid, hnt]
  · have hcval : c = a := by rw [← hfa, if_neg hidc]
    have hfalse : (newRec.copyId == a.id) = false := by
      rw [hcid]
      exact beq_eq_false_iff_ne.mpr (fun h => hidc h.symm)
    rw [hcval, nonTerminalCount_append_single, hfalse]
    simp [hinv a ha]

theorem borrow_book_preserves_inv (S : LibState) (copyId userId : Nat)
    (dueDate now : Int) (hnd : (S.copies.map fun c => c.id).Nodup)
    (hinv : CopyLoanInv S) :
    CopyLoanInv (borrow_book S copyId userId dueDate now).1 := by
  unfold borrow_book
  cases hfind : S.copies.find? (fun c => c.id == copyId) with
  | none => exact hinv
  | some c =>
    have hc := List.mem_of_find?_eq_some hfind
    have hcid : c.id = copyId := by simpa using List.find?_some hfind
    cases hav : c.status.isAvailable with
    | false => simp only [hav, if_neg]; exact hinv
    | true =>
      simp only [hav, if_pos]
      have hstat : c.status = CopyStatus.AVAILABLE := by
        cases hcs : c.status <;> rw [hcs] at hav <;> first | rfl | exact absurd hav (by simp [CopyStatus.isAvailable])
      intro x hx
      rw [← hcid] at hx
      refine nonTerminal_borrow_step hnd hinv hc hstat ?_ ?_ x hx
      · simp [hcid]
      · rfl

theorem checkoutStep_preserves (userId : Nat) (dueDate now : Int)
    (acc : CheckoutAcc) (bookId : Nat)
    (hwf : DBWF acc.state) (hinv : CopyLoanInv acc.state) :
    DBWF (checkoutStep userId dueDate now acc bookId).state ∧
    CopyLoanInv (checkoutStep userId dueDate now acc bookId).state := by
  unfold checkoutStep
  cases hfind : acc.state.copies.find? (fun c => c.bookId == bookId && c.status.isAvailable) with
  | none => exact ⟨hwf, hinv⟩
  | some c =>
    dsimp only
    have hc := List.mem_of_find?_eq_some hfind
    have hp := List.find?_some hfind
    rw [Bool.and_eq_true] at hp
    have hav : c.status = CopyStatus.AVAILABLE := by
      have h2 := hp.2
      cases hcs : c.status <;> rw [hcs] at h2 <;> first | rfl | exact absurd h2 (by simp [CopyStatus.isAvailable])
    obtain ⟨h1, h2, h3, h4, h5⟩ := hwf
    constructor
    · refine ⟨?_, ?_, ?_, ?_, ?_⟩
      · dsimp only
        rw [updateCopy_map_id acc.state.copies c.id
          (fun x => { x with status := CopyStatus.BORROWED }) (fun a => rfl)]
        exact h1
      · dsimp only
        rw [List.map_append]
        have hnot : acc.state.nextId ∉ acc.state.records.map (fun r => r.id) := by
          intro hmem
          rw [List.mem_map] at hmem
          obtain ⟨r, hr, hrid⟩ := hmem
          have := h4 r hr
          omega
        simp [List.nodup_append, h2, hnot]
      · exact h3
      · dsimp only
        intro r hr
        rw [List.mem_append] at hr
        cases hr with
        | inl hin => have := h4 r hin; omega
        | inr hin =>
          rw [List.mem_singleton] at hin
          rw [hin]
          dsimp only
          omega
      · dsimp only
        intro r hr
        have := h5 r hr
        omega
    · intro x hx
      refine nonTerminal_borrow_step h1 hinv hc hav ?_ ?_ x hx
      · rfl
      · rfl

theorem checkout_fold_preserves (userId : Nat) (dueDate now : Int) :
    ∀ (items : List Nat) (acc : CheckoutAcc),
      DBWF acc.state → CopyLoanInv acc.state →
      DBWF ((items.foldl (checkoutStep userId dueDate now) acc).state) ∧
      CopyLoanInv ((items.foldl (checkoutStep userId dueDate now) acc).state)
  | [], _, hwf, hinv => ⟨hwf, hinv⟩
  | b :: items, acc, hwf, hinv => by
    have h := checkoutStep_preserves userId dueDate now acc b hwf hinv
    exact checkout_fold_preserves userId dueDate now items _ h.1 h.2

theorem checkout_cart_preserves_inv (S : LibState) (userId : Nat)
    (dd : Option Int) (now : Int) (hwf : DBWF S) (hinv : CopyLoanInv S) :
    CopyLoanInv (checkout_cart S userId dd now).1 := by
  unfold checkout_cart
  by_cases hempty :
      ((S.cartItems.filter (fun it => it.userId == userId)).map (fun it => it.bookId)).isEmpty
  · simp only [hempty, if_pos]
    exact hinv
  · simp only [hempty, Bool.false_eq_true, if_neg, not_false_iff]
    have h := checkout_fold_preserves userId (dd.getD (now + days14)) now
      ((S.cartItems.filter (fun it => it.userId == userId)).map (fun it => it.bookId))
      { state := S, newRecs := [], failed := [] } hwf hinv
    by_cases hfail :
        (((S.cartItems.filter (fun it => it.userId == userId)).map (fun it => it.bookId)).foldl
          (checkoutStep userId (dd.getD (now + days14)) now)
          { state := S, newRecs := [], failed := [] }).failed.isEmpty
    · simp only [hfail, if_pos]
      exact fun c hc => h.2 c hc
    · simp only [hfail, Bool.false_eq_true, if_neg, not_false_iff]
      exact hinv

theorem CopyStatus.isAvailable_iff {s : CopyStatus} :
    s.isAvailable = true ↔ s = CopyStatus.AVAILABLE := by
  cases s <;> simp [CopyStatus.isAvailable]

theorem BorrowStatus.isPending_iff {s : BorrowStatus} :
    s.isPending = true ↔ s = BorrowStatus.PENDING := by
  cases s <;> simp [BorrowStatus.isPending]

theorem BorrowStatus.isActive_iff {s : BorrowStatus} :
    s.isActive = true ↔ s = BorrowStatus.ACTIVE := by
  cases s <;> simp [BorrowStatus.isActive]

theorem BorrowStatus.isReturned_iff {s : BorrowStatus} :
    s.isReturned = true ↔ s = BorrowStatus.RETURNED := by
  cases s <;> simp [BorrowStatus.isReturned]

theorem resStatus_isPending_iff {s : ReservationStatus} :
    s.isPending = true ↔ s = ReservationStatus.PENDING := by
  cases s <;> simp [ReservationStatus.isPending]

theorem bool_eq_of_iff {a b : Bool} (h : a = true ↔ b = true) : a = b := by
  cases a <;> cases b <;> simp_all

theorem return_book_by_copy_preserves_inv (S : LibState) (copyId userId : Nat)
    (now : Int) (hndC : (S.copies.map fun c => c.id).Nodup)
    (hndR : (S.records.map fun r => r.id).Nodup) (hinv : CopyLoanInv S) :
    CopyLoanInv (return_book_by_copy S copyId userId now).1 := by
  unfold return_book_by_copy
  cases hfc : S.copies.find? (fun c => c.id == copyId) with
  | none => exact hinv
  | some c =>
    dsimp only
    cases hfr : S.records.find?
        (fun r => r.copyId == copyId && r.userId == userId && r.status.isActive) with
    | none => exact hinv
    | some r0 =>
      dsimp only
      have hr0mem := List.mem_of_find?_eq_some hfr
      have hp := List.find?_some hfr
      rw [Bool.and_eq_true, Bool.and_eq_true] at hp
      have hrc : r0.copyId = copyId := by simpa using hp.1.1
      have hract : r0.status = BorrowStatus.ACTIVE :=
        BorrowStatus.isActive_iff.mp hp.2
      have hpr0 : (r0.copyId == copyId && r0.status.isNonTerminal) = true := by
        simp [hrc, hract, BorrowStatus.isNonTerminal]
      have hcmem := List.mem_of_find?_eq_some hfc
      have hcid : c.id = copyId := by simpa using List.find?_some hfc
      have hcount1 : nonTerminalCount S.records copyId = 1 := by
        have hge : 0 < nonTerminalCount S.records copyId := by
          rw [nonTerminalCount, List.countP_pos_iff]
          exact ⟨r0, hr0mem, hpr0⟩
        have heq := hinv c hcmem
        rw [hcid] at heq
        by_cases hb : c.status = CopyStatus.BORROWED
        · rw [heq]
          simp [hb]
        · exfalso
          rw [heq] at hge
          simp [hb] at hge
      intro x hx
      dsimp only at hx ⊢
      unfold updateCopy at hx
      rw [List.mem_map] at hx
      obtain ⟨a, ha, hfa⟩ := hx
      by_cases hida : a.id = copyId
      · have hxval : x = { a with status := CopyStatus.AVAILABLE } := by
          rw [← hfa, if_pos hida]
        have h0 : nonTerminalCount (updateRecord S.records r0.id
            (fun r => { r with returnedAt := some now, status := BorrowStatus.RETURNED }))
            copyId = 0 := by
          unfold nonTerminalCount updateRecord
          refine countP_update_killed (fun r => r.id) r0.id _ _ ?_ hr0mem rfl hpr0 hcount1
          intro r
          simp [BorrowStatus.isNonTerminal]
        rw [hxval]
        dsimp only
        rw [hida, h0]
        simp
      · have hxval : x = a := by
          rw [← hfa, if_neg hida]
        have heqc : nonTerminalCount (updateRecord S.records r0.id
            (fun r => { r with returnedAt := some now, status := BorrowStatus.RETURNED }))
            a.id = nonTerminalCount S.records a.id := by
          unfold nonTerminalCount updateRecord
          refine countP_update_of_invariant S.records (fun r => r.id) r0.id _ _ ?_
          intro r hrmem hid
          have hre : r = r0 := eq_of_mem_of_id_eq hndR hrmem hr0mem hid
          have hfalse : (r0.copyId == a.id) = false := by
            rw [hrc]
            exact beq_eq_false_iff_ne.mpr (fun h => hida h.symm)
          rw [hre]
          simp [hfalse]
        rw [hxval, heqc]
        exact hinv a ha

theorem confirm_pickup_preserves_inv (S : LibState) (recordId : Nat) (now : Int)
    (hndR : (S.records.map fun r => r.id).Nodup) (hinv : CopyLoanInv S) :
    CopyLoanInv (confirm_pickup S recordId now).1 := by
  unfold confirm_pickup
  cases hfr : S.records.find? (fun r => r.id == recordId) with
  | none => exact hinv
  | some r0 =>
    dsimp only
    cases hpend : r0.status.isPending with
    | false =>
      simp only [hpend, Bool.false_eq_true, if_neg, not_false_iff]
      exact hinv
    | true =>
      simp only [hpend, if_pos]
      have hr0mem := List.mem_of_find?_eq_some hfr
      have hid : r0.id = recordId := by simpa using List.find?_some hfr
      have hstat : r0.status = BorrowStatus.PENDING :=
        BorrowStatus.isPending_iff.mp hpend
      intro x hx
      dsimp only at hx ⊢
      have heqc : nonTerminalCount (updateRecord S.records recordId
          (fun r => { r with status := BorrowStatus.ACTIVE, borrowedAt := now }))
          x.id = nonTerminalCount S.records x.id := by
        unfold nonTerminalCount updateRecord
        refine countP_update_of_invariant S.records (fun r => r.id) recordId _ _ ?_
        intro r hrmem hine
        have hre : r = r0 := eq_of_mem_of_id_eq hndR hrmem hr0mem (hine.trans hid.symm)
        rw [hre, hstat]
        simp [BorrowStatus.isNonTerminal]
      rw [heqc]
      exact hinv x hx

/-! The sweep loop characterised as two pointwise maps. -/

theorem sweep_foldl_records : ∀ (E : List BorrowRecord) (S : LibState),
    (E.foldl sweepOne S).records = S.records.map
      (fun r => if E.any (fun e => e.id == r.id) then
        { r with status := BorrowStatus.CANCELLED } else r)
  | [], S => by
    simp
  | e :: E, S => by
    rw [List.foldl_cons, sweep_foldl_records E (sweepOne S e)]
    show (updateRecord S.records e.id
      (fun r => { r with status := BorrowStatus.CANCELLED })).map _ = _
    unfold updateRecord
    rw [List.map_map]
    refine List.map_congr_left ?_
    intro r _
    by_cases hc : r.id = e.id
    · have hbe : (e.id == r.id) = true := by simp [hc]
      simp only [Function.comp_apply, hc, if_pos, List.any_cons, hbe,
        Bool.true_or, if_true]
      cases hE : E.any (fun e2 => e2.id == r.id) <;> simp
    · have hbe : (e.id == r.id) = false := by
        exact beq_eq_false_iff_ne.mpr (fun h => hc h.symm)
      simp only [Function.comp_apply, hc, if_neg, not_false_iff, List.any_cons,
        hbe, Bool.false_or]

theorem sweep_foldl_copies : ∀ (E : List BorrowRecord) (S : LibState),
    (E.foldl sweepOne S).copies = S.copies.map
      (fun c => if E.any (fun e => e.copyId == c.id) then
        { c with status := CopyStatus.AVAILABLE } else c)
  | [], S => by
    simp
  | e :: E, S => by
    rw [List.foldl_cons, sweep_foldl_copies E (sweepOne S e)]
    show (updateCopy S.copies e.copyId
      (fun c => { c with status := CopyStatus.AVAILABLE })).map _ = _
    unfold updateCopy
    rw [List.map_map]
    refine List.map_congr_left ?_
    intro c _
    by_cases hc : c.id = e.copyId
    · have hbe : (e.copyId == c.id) = true := by simp [hc]
      simp only [Function.comp_apply, hc, if_pos, List.any_cons, hbe,
        Bool.true_or, if_true]
      cases hE : E.any (fun e2 => e2.copyId == c.id) <;> simp
    · have hbe : (e.copyId == c.id) = false := by
        exact beq_eq_false_iff_ne.mpr (fun h => hc h.symm)
      simp only [Function.comp_apply, hc, if_neg, not_false_iff, List.any_cons,
        hbe, Bool.false_or]

theorem sweep_foldl_frame : ∀ (E : List BorrowRecord) (S : LibState),
    (E.foldl sweepOne S).books = S.books ∧
    (E.foldl sweepOne S).reservations = S.reservations ∧
    (E.foldl sweepOne S).cartItems = S.cartItems ∧
    (E.foldl sweepOne S).nextId = S.nextId
  | [], S => ⟨rfl, rfl, rfl, rfl⟩
  | e :: E, S => by
    rw [List.foldl_cons]
    exact sweep_foldl_frame E (sweepOne S e)

/-- The sweep cancels exactly the PENDING records at or past the cutoff. -/
theorem check_expired_pickups_records (S : LibState) (now : Int)
    (hndR : (S.records.map fun r => r.id).Nodup) :
    (check_expired_pickups S now).records = S.records.map
      (fun r => if sweepExpired r (now - hours48) then
        { r with status := BorrowStatus.CANCELLED } else r) := by
  unfold check_expired_pickups
  by_cases hE : (S.records.filter (fun r => sweepExpired r (now - hours48))).isEmpty
  · simp only [hE, if_pos]
    have hnone : ∀ r ∈ S.records, sweepExpired r (now - hours48) = false := by
      intro r hr
      rw [List.isEmpty_iff] at hE
      by_contra h
      have hq : sweepExpired r (now - hours48) = true := by
        cases hv : sweepExpired r (now - hours48)
        · exact absurd hv h
        · rfl
      have : r ∈ S.records.filter (fun r => sweepExpired r (now - hours48)) :=
        List.mem_filter.mpr ⟨hr, hq⟩
      rw [hE] at this
      cases this
    have : S.records.map (fun r => if sweepExpired r (now - hours48) then
        { r with status := BorrowStatus.CANCELLED } else r) =
        S.records.map (fun r => r) := by
      refine List.map_congr_left ?_
      intro r hr
      rw [hnone r hr]
      simp
    rw [this, List.map_id']
  · simp only [hE, Bool.false_eq_true, if_neg, not_false_iff]
    rw [sweep_foldl_records]
    refine List.map_congr_left ?_
    intro r hr
    have hcond : ((S.records.filter (fun r => sweepExpired r (now - hours48))).any
        (fun e => e.id == r.id)) = sweepExpired r (now - hours48) := by
      refine bool_eq_of_iff ?_
      constructor
      · intro hany
        rw [List.any_eq_true] at hany
        obtain ⟨e, heE, hee⟩ := hany
        rw [List.mem_filter] at heE
        have heid : e.id = r.id := by simpa using hee
        have : e = r := eq_of_mem_of_id_eq hndR heE.1 hr heid
        rw [← this]
        exact heE.2
      · intro hq
        rw [List.any_eq_true]
        exact ⟨r, List.mem_filter.mpr ⟨hr, hq⟩, by simp⟩
    rw [hcond]

/-- The sweep frees exactly the copies referenced by a swept record. -/
theorem check_expired_pickups_copies (S : LibState) (now : Int) :
    (check_expired_pickups S now).copies = S.copies.map
      (fun c => if S.records.any
          (fun r => sweepExpired r (now - hours48) && r.copyId == c.id) then
        { c with status := CopyStatus.AVAILABLE } else c) := by
  unfold check_expired_pickups
  by_cases hE : (S.records.filter (fun r => sweepExpired r (now - hours48))).isEmpty
  · simp only [hE, if_pos]
    rw [List.isEmpty_iff] at hE
    have : S.copies.map (fun c => if S.records.any
        (fun r => sweepExpired r (now - hours48) && r.copyId == c.id) then
        { c with status := CopyStatus.AVAILABLE } else c) =
        S.copies.map (fun c => c) := by
      refine List.map_congr_left ?_
      intro c _
      have hfalse : (S.records.any
          (fun r => sweepExpired r (now - hours48) && r.copyId == c.id)) = false := by
        rw [Bool.eq_false_iff]
        intro hany
        rw [List.any_eq_true] at hany
        obtain ⟨r, hrmem, hrp⟩ := hany
        rw [Bool.and_eq_true] at hrp
        have : r ∈ S.records.filter (fun r => sweepExpired r (now - hours48)) :=
          List.mem_filter.mpr ⟨hrmem, hrp.1⟩
        rw [hE] at this
        cases this
      rw [hfalse]
      simp
    rw [this, List.map_id']
  · simp only [hE, Bool.false_eq_true, if_neg, not_false_iff]
    rw [sweep_foldl_copies]
    refine List.map_congr_left ?_
    intro c _
    have hcond : ((S.records.filter (fun r => sweepExpired r (now - hours48))).any
        (fun e => e.copyId == c.id)) = (S.records.any
        (fun r => sweepExpired r (now - hours48) && r.copyId == c.id)) := by
      refine bool_eq_of_iff ?_
      constructor
      · intro hany
        rw [List.any_eq_true] at hany
        obtain ⟨e, heE, hee⟩ := hany
        rw [List.mem_filter] at heE
        rw [List.any_eq_true]
        exact ⟨e, heE.1, by rw [Bool.and_eq_true]; exact ⟨heE.2, hee⟩⟩
      · intro hany
        rw [List.any_eq_true] at hany
        obtain ⟨r, hrmem, hrp⟩ := hany
        rw [Bool.and_eq_true] at hrp
        rw [List.any_eq_true]
        exact ⟨r, List.mem_filter.mpr ⟨hrmem, hrp.1⟩, hrp.2⟩
    rw [hcond]

theorem sweep_preserves_inv (S : LibState) (now : Int)
    (hndR : (S.records.map fun r => r.id).Nodup) (hinv : CopyLoanInv S) :
    CopyLoanInv (check_expired_pickups S now) := by
  have hrec := check_expired_pickups_records S now hndR
  have hcop := check_expired_pickups_copies S now
  intro x hx
  rw [hcop, List.mem_map] at hx
  rw [hrec]
  obtain ⟨c, hcmem, hfc⟩ := hx
  by_cases hany : (S.records.any
      (fun r => sweepExpired r (now - hours48) && r.copyId == c.id)) = true
  · have hxval : x = { c with status := CopyStatus.AVAILABLE } := by
      rw [← hfc, if_pos hany]
    rw [List.any_eq_true] at hany
    obtain ⟨r0, hr0mem, hr0p⟩ := hany
    rw [Bool.and_eq_true] at hr0p
    have hq := hr0p.1
    have hrc : r0.copyId = c.id := by simpa using hr0p.2
    have hr0pend : r0.status = BorrowStatus.PENDING := by
      unfold sweepExpired at hq
      rw [Bool.and_eq_true] at hq
      exact BorrowStatus.isPending_iff.mp hq.1
    have hpr0 : (r0.copyId == c.id && r0.status.isNonTerminal) = true := by
      simp [hrc, hr0pend, BorrowStatus.isNonTerminal]
    have hcount1 : nonTerminalCount S.records c.id = 1 := by
      have hge : 0 < nonTerminalCount S.records c.id := by
        rw [nonTerminalCount, List.countP_pos_iff]
        exact ⟨r0, hr0mem, hpr0⟩
      have heq := hinv c hcmem
      by_cases hb : c.status = CopyStatus.BORROWED
      · rw [heq]
        simp [hb]
      · exfalso
        rw [heq] at hge
        simp [hb] at hge
    have h0 : nonTerminalCount (S.records.map
        (fun r => if sweepExpired r (now - hours48) then
          { r with status := BorrowStatus.CANCELLED } else r)) c.id = 0 := by
      unfold nonTerminalCount
      rw [List.countP_map, List.countP_eq_zero]
      intro a ha
      by_cases hqa : sweepExpired a (now - hours48) = true
      · simp [Function.comp, hqa, BorrowStatus.isNonTerminal]
      · intro hpa
        simp only [Function.comp_apply, hqa, Bool.false_eq_true, if_neg,
          not_false_iff] at hpa
        have : a = r0 := countP_unique_mem hcount1 ha hpa hr0mem hpr0
        rw [this] at hqa
        exact hqa hq
    rw [hxval]
    dsimp only
    rw [h0]
    simp
  · have hxval : x = c := by
      rw [← hfc, if_neg hany]
    have heqc : nonTerminalCount (S.records.map
        (fun r => if sweepExpired r (now - hours48) then
          { r with status := BorrowStatus.CANCELLED } else r)) c.id =
        nonTerminalCount S.records c.id := by
      unfold nonTerminalCount
      rw [List.countP_map]
      refine List.countP_congr ?_
      intro a ha
      by_cases hqa : sweepExpired a (now - hours48) = true
      · have hbc : (a.copyId == c.id) = false := by
          rw [Bool.eq_false_iff]
          intro hbc
          exact hany (List.any_eq_true.mpr
            ⟨a, ha, by rw [Bool.and_eq_true]; exact ⟨hqa, hbc⟩⟩)
        simp [Function.comp, hqa, hbc, BorrowStatus.isNonTerminal]
      · simp [Function.comp, hqa]
    rw [hxval, heqc]
    exact hinv c hcmem

/-- The mutating operations of the lending core other than the
unguarded copy-update endpoint. -/
inductive SafeOp where
  | borrow (copyId userId : Nat) (dueDate now : Int)
  | checkout (userId : Nat) (dueDateReq : Option Int) (now : Int)
  | returnByCopy (copyId userId : Nat) (now : Int)
  | confirmPickup (recordId : Nat) (now : Int)
  | sweep (now : Int)
deriving Repr, DecidableEq

def SafeOp.apply : SafeOp → LibState → LibState
  | .borrow copyId userId dueDate now, S => (borrow_book S copyId userId dueDate now).1
  | .checkout userId dueDateReq now, S => (checkout_cart S userId dueDateReq now).1
  | .returnByCopy copyId userId now, S => (return_book_by_copy S copyId userId now).1
  | .confirmPickup recordId now, S => (confirm_pickup S recordId now).1
  | .sweep now, S => check_expired_pickups S now

/-- A BORROWED copy with one ACTIVE borrow record: the invariant holds. -/
def exCopy0 : BookCopy :=
  { id := 0, bookId := 0, barcode := 100, status := .BORROWED }

def exRecordActive : BorrowRecord :=
  { id := 1, copyId := 0, userId := 7, borrowedAt := 0, dueDate := 1000,
    returnedAt := none, status := .ACTIVE, createdAt := 0 }

def exState1 : LibState :=
  { books := [0], copies := [exCopy0], records := [exRecordActive],
    reservations := [], cartItems := [], nextId := 2 }

/-- C1, counterexample: from a well-formed state satisfying the copy/loan
invariant, the copy-update endpoint (one of the operations the claim says
preserve the invariant) sets a BORROWED copy with an ACTIVE loan to
AVAILABLE, breaking the invariant. -/
theorem C1_counterexample :
    DBWF exState1 ∧ CopyLoanInv exState1 ∧
    ¬ CopyLoanInv (update_book_copy exState1 0 (some CopyStatus.AVAILABLE) none).1 :=
  ⟨by decide, by decide, by decide⟩

/-- C1 (amended): in every well-formed state satisfying the copy/loan
invariant (a copy is BORROWED exactly when exactly one PENDING/ACTIVE
borrow record references it), the walk-in borrow, cart checkout,
return-by-copy, pickup-confirmation and sweep operations preserve the
invariant; the copy-update endpoint is excluded because it can break it. -/
theorem C1_safe_ops_preserve_inv (op : SafeOp) (S : LibState)
    (hwf : DBWF S) (hinv : CopyLoanInv S) : CopyLoanInv (op.apply S) := by
  obtain ⟨h1, h2, h3, h4, h5⟩ := hwf
  cases op with
  | borrow copyId userId dueDate now =>
    exact borrow_book_preserves_inv S copyId userId dueDate now h1 hinv
  | checkout userId dueDateReq now =>
    exact checkout_cart_preserves_inv S userId dueDateReq now ⟨h1, h2, h3, h4, h5⟩ hinv
  | returnByCopy copyId userId now =>
    exact return_book_by_copy_preserves_inv S copyId userId now h1 h2 hinv
  | confirmPickup recordId now =>
    exact confirm_pickup_preserves_inv S recordId now h2 hinv
  | sweep now =>
    exact sweep_preserves_inv S now h2 hinv

theorem C1_witness :
    DBWF exState1 ∧ CopyLoanInv exState1 ∧
    CopyLoanInv ((SafeOp.returnByCopy 0 7 50).apply exState1) :=
  ⟨by decide, by decide,
    C1_safe_ops_preserve_inv (SafeOp.returnByCopy 0 7 50) exState1
      (by decide) (by decide)⟩

/-! Properties of the order-by-reserved-at / limit-1 selection. -/

theorem minResFold_mem : ∀ (L : List Reservation) (acc : Option Reservation)
    (res : Reservation), L.foldl minResFold acc = some res →
    res ∈ L ∨ acc = some res
  | [], _, _ => fun h => .inr h
  | r :: L, acc, res => fun h => by
    rw [List.foldl_cons] at h
    rcases minResFold_mem L (minResFold acc r) res h with hmem | hacc
    · exact .inl (List.mem_cons_of_mem r hmem)
    · cases acc with
      | none =>
        have hacc2 : some r = some res := hacc
        rw [Option.some_inj] at hacc2
        exact .inl (hacc2 ▸ List.mem_cons_self r L)
      | some b =>
        have hacc2 : (if r.reservedAt < b.reservedAt then some r else some b) =
            some res := hacc
        by_cases hlt : r.reservedAt < b.reservedAt
        · rw [if_pos hlt, Option.some_inj] at hacc2
          exact .inl (hacc2 ▸ List.mem_cons_self r L)
        · rw [if_neg hlt] at hacc2
          exact .inr hacc2

theorem minResFold_le : ∀ (L : List Reservation) (acc : Option Reservation)
    (res : Reservation), L.foldl minResFold acc = some res →
    (∀ r ∈ L, res.reservedAt ≤ r.reservedAt) ∧
    (∀ b, acc = some b → res.reservedAt ≤ b.reservedAt)
  | [], acc, res => fun h => by
    refine ⟨fun r hr => absurd hr (List.not_mem_nil r), fun b hb => ?_⟩
    have h2 : acc = some res := h
    rw [h2, Option.some_inj] at hb
    rw [hb]
  | r :: L, acc, res => fun h => by
    rw [List.foldl_cons] at h
    have ih := minResFold_le L (minResFold acc r) res h
    have hstep : ∀ b, minResFold acc r = some b →
        res.reservedAt ≤ b.reservedAt := ih.2
    have hler : res.reservedAt ≤ r.reservedAt := by
      cases hacc : acc with
      | none =>
        refine hstep r ?_
        rw [hacc]
        rfl
      | some b =>
        by_cases hlt : r.reservedAt < b.reservedAt
        · refine hstep r ?_
          rw [hacc]
          show (if r.reservedAt < b.reservedAt then some r else some b) = some r
          rw [if_pos hlt]
        · have hble : res.reservedAt ≤ b.reservedAt := by
            refine hstep b ?_
            rw [hacc]
            show (if r.reservedAt < b.reservedAt then some r else some b) = some b
            rw [if_neg hlt]
          omega
    refine ⟨?_, ?_⟩
    · intro r2 hr2
      rcases List.mem_cons.mp hr2 with hr2 | hr2
      · rw [hr2]
        exact hler
      · exact ih.1 r2 hr2
    · intro b hb
      by_cases hlt : r.reservedAt < b.reservedAt
      · omega
      · refine hstep b ?_
        rw [hb]
        show (if r.reservedAt < b.reservedAt then some r else some b) = some b
        rw [if_neg hlt]

theorem minResFold_isSome_acc : ∀ (L : List Reservation) (b : Reservation),
    ∃ res, L.foldl minResFold (some b) = some res
  | [], b => ⟨b, rfl⟩
  | r :: L, b => by
    rw [List.foldl_cons]
    have hred : minResFold (some b) r =
        (if r.reservedAt < b.reservedAt then some r else some b) := rfl
    rw [hred]
    by_cases hlt : r.reservedAt < b.reservedAt
    · rw [if_pos hlt]
      exact minResFold_isSome_acc L r
    · rw [if_neg hlt]
      exact minResFold_isSome_acc L b

/-- When the queue query returns nothing, there is no PENDING reservation
for the book at all. -/
theorem firstPendingReservation_none (rs : List Reservation) (bookId : Nat)
    (h : firstPendingReservation rs bookId = none) :
    ∀ r ∈ rs, r.bookId = bookId → r.status ≠ ReservationStatus.PENDING := by
  intro r hr hb hp
  have hpred : (r.bookId == bookId && r.status.isPending) = true := by
    simp [hb, hp, ReservationStatus.isPending]
  have hrf : r ∈ rs.filter (fun r => r.bookId == bookId && r.status.isPending) :=
    List.mem_filter.mpr ⟨hr, hpred⟩
  unfold firstPendingReservation at h
  cases hfil : rs.filter (fun r => r.bookId == bookId && r.status.isPending) with
  | nil =>
    rw [hfil] at hrf
    cases hrf
  | cons r0 L =>
    rw [hfil, List.foldl_cons] at h
    have hred : L.foldl minResFold (minResFold none r0) =
        L.foldl minResFold (some r0) := rfl
    rw [hred] at h
    obtain ⟨res, hres⟩ := minResFold_isSome_acc L r0
    rw [hres] at h
    cases h

/-- The queue query returns a PENDING reservation of the book with the
smallest reserved_at. -/
theorem firstPendingReservation_spec (rs : List Reservation) (bookId : Nat)
    (res : Reservation) (h : firstPendingReservation rs bookId = some res) :
    res ∈ rs ∧ res.bookId = bookId ∧ res.status = ReservationStatus.PENDING ∧
    ∀ r ∈ rs, r.bookId = bookId → r.status = ReservationStatus.PENDING →
      res.reservedAt ≤ r.reservedAt := by
  unfold firstPendingReservation at h
  have hmem := minResFold_mem _ _ _ h
  have hmem2 : res ∈ rs.filter (fun r => r.bookId == bookId && r.status.isPending) := by
    rcases hmem with hmem | hmem
    · exact hmem
    · cases hmem
  rw [List.mem_filter, Bool.and_eq_true] at hmem2
  have hrs := hmem2.1
  have hbb := hmem2.2.1
  have hpp := hmem2.2.2
  refine ⟨hrs, by simpa using hbb, resStatus_isPending_iff.mp hpp, ?_⟩
  intro r hr hb hp
  refine (minResFold_le _ _ _ h).1 r ?_
  refine List.mem_filter.mpr ⟨hr, ?_⟩
  simp [hb, hp, ReservationStatus.isPending]

def exRes1 : Reservation :=
  { id := 2, userId := 8, bookId := 0, status := .PENDING,
    reservedAt := 0, expiresAt := 10, fulfilledAt := none }

def exRes2 : Reservation :=
  { id := 3, userId := 9, bookId := 0, status := .PENDING,
    reservedAt := 5, expiresAt := 1000000, fulfilledAt := none }

/-- A BORROWED copy with one ACTIVE loan and two PENDING reservations,
the older of which has already expired. -/
def exStateC2 : LibState :=
  { books := [0], copies := [exCopy0], records := [exRecordActive],
    reservations := [exRes1, exRes2], cartItems := [], nextId := 4 }

/-- C2, counterexample: at now = 100 the head reservation (oldest
reserved_at) is expired and a younger, non-expired reservation exists;
the claim says the head is marked EXPIRED and the younger one FULFILLED,
but the code leaves the reservations list completely unchanged after the
successful return. -/
theorem C2_counterexample :
    (return_book_by_copy exStateC2 0 7 100).2 =
      Except.ok { exRecordActive with
                    returnedAt := some 100, status := BorrowStatus.RETURNED } ∧
    firstPendingReservation exStateC2.reservations 0 = some exRes1 ∧
    exRes1.isExpiredAt 100 = true ∧
    exRes2.status = ReservationStatus.PENDING ∧
    exRes2.isExpiredAt 100 = false ∧
    (return_book_by_copy exStateC2 0 7 100).1.reservations = exStateC2.reservations :=
  ⟨rfl, rfl, rfl, rfl, rfl, rfl⟩

/-- C2 (amended): on a successful return, only the single oldest PENDING
reservation of the copy's book is examined: if it is not expired it is
marked FULFILLED with fulfilled-at = now, and otherwise (as when the
queue is empty) the reservations are left completely unchanged — an
expired head is not marked EXPIRED and no younger reservation is
fulfilled, so repeated returns stall on an expired head. -/
theorem C2_return_fulfillment (S : LibState) (copyId userId : Nat) (now : Int)
    (S2 : LibState) (rec2 : BorrowRecord) (c : BookCopy)
    (hfc : S.copies.find? (fun x => x.id == copyId) = some c)
    (h : return_book_by_copy S copyId userId now = (S2, Except.ok rec2)) :
    (firstPendingReservation S.reservations c.bookId = none →
      S2.reservations = S.reservations) ∧
    (∀ res, firstPendingReservation S.reservations c.bookId = some res →
      res ∈ S.reservations ∧ res.bookId = c.bookId ∧
      res.status = ReservationStatus.PENDING ∧
      (∀ r ∈ S.reservations, r.bookId = c.bookId →
        r.status = ReservationStatus.PENDING → res.reservedAt ≤ r.reservedAt) ∧
      (res.isExpiredAt now = true → S2.reservations = S.reservations) ∧
      (res.isExpiredAt now = false → S2.reservations =
        updateReservation S.reservations res.id
          (fun x => { x with status := ReservationStatus.FULFILLED,
                             fulfilledAt := some now }))) := by
  unfold return_book_by_copy at h
  rw [hfc] at h
  dsimp only at h
  cases hfr : S.records.find?
      (fun r => r.copyId == copyId && r.userId == userId && r.status.isActive) with
  | none =>
    rw [hfr] at h
    simp at h
  | some r0 =>
    rw [hfr] at h
    dsimp only at h
    rw [Prod.mk.injEq] at h
    have hS2 := h.1
    constructor
    · intro hfp
      rw [← hS2]
      dsimp only
      rw [hfp]
    · intro res hfp
      have hspec := firstPendingReservation_spec S.reservations c.bookId res hfp
      refine ⟨hspec.1, hspec.2.1, hspec.2.2.1, hspec.2.2.2, ?_, ?_⟩
      · intro hexp
        rw [← hS2]
        dsimp only
        rw [hfp]
        dsimp only
        rw [if_pos hexp]
      · intro hexp
        rw [← hS2]
        dsimp only
        rw [hfp]
        dsimp only
        rw [if_neg (by rw [hexp]; exact Bool.false_ne_true)]

theorem C2_witness :
    (return_book_by_copy exStateC2 0 7 7).1.reservations =
      updateReservation exStateC2.reservations 2
        (fun x => { x with status := ReservationStatus.FULFILLED,
                           fulfilledAt := some 7 }) := by
  have h := C2_return_fulfillment exStateC2 0 7 7
    (return_book_by_copy exStateC2 0 7 7).1
    { exRecordActive with returnedAt := some 7, status := BorrowStatus.RETURNED }
    exCopy0 rfl rfl
  exact (h.2 exRes1 rfl).2.2.2.2.2 rfl

/-! Checkout atomicity. -/

theorem checkoutStep_availableCount_le (userId : Nat) (dueDate now : Int)
    (acc : CheckoutAcc) (bookId b : Nat) :
    availableCount (checkoutStep userId dueDate now acc bookId).state b ≤
      availableCount acc.state b := by
  unfold checkoutStep
  cases hfind : acc.state.copies.find?
      (fun c => c.bookId == bookId && c.status.isAvailable) with
  | none => exact le_refl _
  | some c =>
    dsimp only
    unfold availableCount updateCopy
    dsimp only
    rw [List.countP_map]
    refine List.countP_mono_left ?_
    intro a ha hpa
    by_cases hc : a.id = c.id
    · exfalso
      simp [Function.comp, hc, CopyStatus.isAvailable] at hpa
    · simpa [Function.comp, hc] using hpa

theorem checkoutStep_failed_mono (userId : Nat) (dueDate now : Int)
    (acc : CheckoutAcc) (bookId b : Nat) (hb : b ∈ acc.failed) :
    b ∈ (checkoutStep userId dueDate now acc bookId).failed := by
  unfold checkoutStep
  cases hfind : acc.state.copies.find?
      (fun c => c.bookId == bookId && c.status.isAvailable) with
  | none =>
    dsimp only
    exact List.mem_append_left _ hb
  | some c =>
    dsimp only
    exact hb

theorem checkout_fold_failed (userId : Nat) (dueDate now : Int) :
    ∀ (items : List Nat) (acc : CheckoutAcc) (b : Nat),
      (b ∈ acc.failed ∨ (b ∈ items ∧ availableCount acc.state b = 0)) →
      b ∈ (items.foldl (checkoutStep userId dueDate now) acc).failed
  | [], acc, b => fun h => by
    rcases h with h | h
    · exact h
    · exact absurd h.1 (List.not_mem_nil b)
  | i :: items, acc, b => fun h => by
    rw [List.foldl_cons]
    rcases h with h | ⟨hmem, hcnt⟩
    · exact checkout_fold_failed userId dueDate now items _ b
        (.inl (checkoutStep_failed_mono userId dueDate now acc i b h))
    · rcases List.mem_cons.mp hmem with hbi | hbi
      · refine checkout_fold_failed userId dueDate now items _ b (.inl ?_)
        subst hbi
        have hnone : acc.state.copies.find?
            (fun c => c.bookId == b && c.status.isAvailable) = none := by
          rw [List.find?_eq_none]
          intro c hc hpc
          have : 0 < availableCount acc.state b := by
            rw [availableCount, List.countP_pos_iff]
            exact ⟨c, hc, hpc⟩
          omega
        unfold checkoutStep
        rw [hnone]
        dsimp only
        exact List.mem_append_right _ (List.mem_singleton.mpr rfl)
      · refine checkout_fold_failed userId dueDate now items _ b (.inr ⟨hbi, ?_⟩)
        have := checkoutStep_availableCount_le userId dueDate now acc i b
        omega

/-- C3: checkout is all-or-nothing: when some cart item's book has zero
AVAILABLE copies, the whole call returns the original state unchanged (no
borrow record created, no copy flipped, cart untouched) together with a
failure list that contains every cart book that had zero available
copies. -/
theorem C3_checkout_atomic (S : LibState) (userId : Nat) (dd : Option Int)
    (now : Int) (b0 : Nat)
    (hmem : b0 ∈ (S.cartItems.filter (fun it => it.userId == userId)).map
      (fun it => it.bookId))
    (hzero : availableCount S b0 = 0) :
    ∃ failed, checkout_cart S userId dd now =
      (S, Except.error (ApiError.checkoutFailed failed)) ∧ b0 ∈ failed ∧
      ∀ b ∈ (S.cartItems.filter (fun it => it.userId == userId)).map
          (fun it => it.bookId),
        availableCount S b = 0 → b ∈ failed := by
  unfold checkout_cart
  have hne : ¬ (((S.cartItems.filter (fun it => it.userId == userId)).map
      (fun it => it.bookId)).isEmpty = true) := by
    intro hemp
    rw [List.isEmpty_iff] at hemp
    rw [hemp] at hmem
    exact List.not_mem_nil b0 hmem
  rw [if_neg hne]
  have hb0 : b0 ∈ (((S.cartItems.filter (fun it => it.userId == userId)).map
      (fun it => it.bookId)).foldl (checkoutStep userId (dd.getD (now + days14)) now)
      { state := S, newRecs := [], failed := [] }).failed :=
    checkout_fold_failed userId (dd.getD (now + days14)) now _ _ b0 (.inr ⟨hmem, hzero⟩)
  have hfne : ¬ ((((S.cartItems.filter (fun it => it.userId == userId)).map
      (fun it => it.bookId)).foldl (checkoutStep userId (dd.getD (now + days14)) now)
      { state := S, newRecs := [], failed := [] }).failed.isEmpty = true) := by
    intro hemp
    rw [List.isEmpty_iff] at hemp
    rw [hemp] at hb0
    exact List.not_mem_nil b0 hb0
  rw [if_neg hfne]
  refine ⟨_, rfl, hb0, ?_⟩
  intro b hb hz
  exact checkout_fold_failed userId (dd.getD (now + days14)) now _ _ b (.inr ⟨hb, hz⟩)

/-- A cart with one availably stocked book and one book with no copies. -/
def exCart3 : LibState :=
  { books := [0, 1],
    copies := [{ id := 0, bookId := 0, barcode := 100, status := .AVAILABLE }],
    records := [], reservations := [],
    cartItems := [{ userId := 5, bookId := 0 }, { userId := 5, bookId := 1 }],
    nextId := 10 }

theorem C3_witness :
    ∃ failed, checkout_cart exCart3 5 none 0 =
      (exCart3, Except.error (ApiError.checkoutFailed failed)) ∧ 1 ∈ failed ∧
      ∀ b ∈ (exCart3.cartItems.filter (fun it => it.userId == 5)).map
          (fun it => it.bookId),
        availableCount exCart3 b = 0 → b ∈ failed :=
  C3_checkout_atomic exCart3 5 none 0 1 (by decide) (by decide)

/-- C4: fulfilling a reservation only touches the reservations table: the
librarian fulfill endpoint leaves copies, borrow records and cart items
unchanged on every path (success and all error paths), and on a
successful return-by-copy the only copy change is the returned copy being
set to AVAILABLE and no borrow record is created or deleted (the record
ids are unchanged), whatever the queue fulfillment does. -/
theorem C4_fulfillment_frame :
    (∀ (S : LibState) (resId : Nat) (now : Int),
      (fulfill_reservation S resId now).1.copies = S.copies ∧
      (fulfill_reservation S resId now).1.records = S.records ∧
      (fulfill_reservation S resId now).1.cartItems = S.cartItems) ∧
    (∀ (S : LibState) (copyId userId : Nat) (now : Int) (S2 : LibState)
        (rec2 : BorrowRecord),
      return_book_by_copy S copyId userId now = (S2, Except.ok rec2) →
      S2.copies = updateCopy S.copies copyId
        (fun c => { c with status := CopyStatus.AVAILABLE }) ∧
      S2.records.map (fun r => r.id) = S.records.map (fun r => r.id)) := by
  constructor
  · intro S resId now
    unfold fulfill_reservation
    cases hf : S.reservations.find? (fun r => r.id == resId) with
    | none => exact ⟨rfl, rfl, rfl⟩
    | some r0 =>
      dsimp only
      cases hpend : r0.status.isPending with
      | false => simp [hpend]
      | true =>
        cases hexp : r0.isExpiredAt now with
        | true => simp [hpend, hexp]
        | false => simp [hpend, hexp]
  · intro S copyId userId now S2 rec2 h
    unfold return_book_by_copy at h
    cases hfc : S.copies.find? (fun x => x.id == copyId) with
    | none =>
      rw [hfc] at h
      simp at h
    | some c =>
      rw [hfc] at h
      dsimp only at h
      cases hfr : S.records.find?
          (fun r => r.copyId == copyId && r.userId == userId && r.status.isActive) with
      | none =>
        rw [hfr] at h
        simp at h
      | some r0 =>
        rw [hfr] at h
        dsimp only at h
        rw [Prod.mk.injEq] at h
        have hS2 := h.1
        constructor
        · rw [← hS2]
        · rw [← hS2]
          dsimp only
          exact updateRecord_map_id S.records r0.id _ (fun r => rfl)

theorem C4_witness :
    (fulfill_reservation exStateC2 2 7).1.copies = exStateC2.copies ∧
    ((return_book_by_copy exStateC2 0 7 7).1.copies =
      updateCopy exStateC2.copies 0
        (fun c => { c with status := CopyStatus.AVAILABLE }) ∧
     (return_book_by_copy exStateC2 0 7 7).1.records.map (fun r => r.id) =
      exStateC2.records.map (fun r => r.id)) := by
  have h := C4_fulfillment_frame
  exact ⟨(h.1 exStateC2 2 7).1,
    h.2 exStateC2 0 7 7 (return_book_by_copy exStateC2 0 7 7).1
      { exRecordActive with returnedAt := some 7, status := BorrowStatus.RETURNED }
      rfl⟩

def exRecCancelled : BorrowRecord :=
  { id := 1, copyId := 0, userId := 7, borrowedAt := 0, dueDate := 1000,
    returnedAt := none, status := .CANCELLED, createdAt := 0 }

/-- A CANCELLED (terminal) borrow record with its copy AVAILABLE. -/
def exStateC5 : LibState :=
  { books := [0],
    copies := [{ id := 0, bookId := 0, barcode := 100, status := .AVAILABLE }],
    records := [exRecCancelled], reservations := [exRes1], cartItems := [],
    nextId := 4 }

/-- An ACTIVE loan on a BORROWED copy with one non-expired PENDING
reservation for the same book. -/
def exStateC5b : LibState :=
  { books := [0], copies := [exCopy0], records := [exRecordActive],
    reservations := [exRes2], cartItems := [], nextId := 4 }

/-- C5, counterexample: returning by record id succeeds on a CANCELLED
record (the claim allows success only for PENDING/ACTIVE), and a
successful return by record id does not invoke reservation fulfillment
even though a non-expired PENDING reservation heads the queue. -/
theorem C5_counterexample :
    exRecCancelled.status = BorrowStatus.CANCELLED ∧
    (return_book_by_record exStateC5 1 50).2 = Except.ok () ∧
    exRes2.isExpiredAt 50 = false ∧
    firstPendingReservation exStateC5b.reservations 0 = some exRes2 ∧
    (return_book_by_record exStateC5b 1 50).2 = Except.ok () ∧
    (return_book_by_record exStateC5b 1 50).1.reservations = exStateC5b.reservations :=
  ⟨rfl, rfl, rfl, rfl, rfl, rfl⟩

/-- C5 (amended): returning by record id fails with the already-returned
error exactly when the record is RETURNED; any other status, including
the terminal CANCELLED and the OVERDUE state, is accepted; on success the
record becomes RETURNED with returned-at = now, its copy is set to
AVAILABLE, and no reservation fulfillment is performed (the reservations
table is unchanged). -/
theorem C5_return_by_record (S : LibState) (recordId : Nat) (now : Int)
    (r0 : BorrowRecord)
    (hf : S.records.find? (fun r => r.id == recordId) = some r0) :
    (r0.status = BorrowStatus.RETURNED →
      return_book_by_record S recordId now =
        (S, Except.error ApiError.alreadyReturned)) ∧
    (r0.status ≠ BorrowStatus.RETURNED →
      return_book_by_record S recordId now =
        ({ S with
            records := updateRecord S.records recordId
              (fun r => { r with status := BorrowStatus.RETURNED,
                                 returnedAt := some now }),
            copies := updateCopy S.copies r0.copyId
              (fun c => { c with status := CopyStatus.AVAILABLE }) },
         Except.ok ()) ∧
      (return_book_by_record S recordId now).1.reservations = S.reservations) := by
  unfold return_book_by_record
  rw [hf]
  dsimp only
  constructor
  · intro hret
    have : r0.status.isReturned = true := BorrowStatus.isReturned_iff.mpr hret
    rw [if_pos this]
  · intro hret
    have : r0.status.isReturned = false := by
      cases hv : r0.status.isReturned
      · rfl
      · exact absurd (BorrowStatus.isReturned_iff.mp hv) hret
    rw [if_neg (by rw [this]; exact Bool.false_ne_true)]
    exact ⟨rfl, rfl⟩

theorem C5_witness :
    exRecCancelled.status ≠ BorrowStatus.RETURNED ∧
    return_book_by_record exStateC5 1 50 =
      ({ exStateC5 with
          records := updateRecord exStateC5.records 1
            (fun r => { r with status := BorrowStatus.RETURNED,
                               returnedAt := some 50 }),
          copies := updateCopy exStateC5.copies 0
            (fun c => { c with status := CopyStatus.AVAILABLE }) },
       Except.ok ()) := by
  have h := C5_return_by_record exStateC5 1 50 exRecCancelled rfl
  exact ⟨by decide, (h.2 (by decide)).1⟩

/-- A book with an AVAILABLE copy and an existing PENDING reservation by
user 8. -/
def exStateC6 : LibState :=
  { books := [0],
    copies := [{ id := 0, bookId := 0, barcode := 100, status := .AVAILABLE }],
    records := [],
    reservations := [{ id := 2, userId := 8, bookId := 0, status := .PENDING,
                       reservedAt := 0, expiresAt := 10, fulfilledAt := none }],
    cartItems := [], nextId := 4 }

/-- A book with no copies and no reservations. -/
def exStateC6b : LibState :=
  { books := [0], copies := [], records := [], reservations := [],
    cartItems := [], nextId := 4 }

/-- C6, counterexample: (i) when the user already has a PENDING
reservation AND the book has an AVAILABLE copy, the call fails with the
duplicate rejection, not the copy-available rejection the claim requires
for any book with available copies; (ii) the row is built from two
separate clock readings (reserved_at = utcnow(); expires_at = utcnow() +
48h in source order), so with readings 0 and 1 the stored expires-at is
not reserved-at plus exactly 48 hours. -/
theorem C6_counterexample :
    0 < availableCount exStateC6 0 ∧
    (create_reservation exStateC6 8 0 0 0).2 =
      Except.error ApiError.duplicateReservation ∧
    (create_reservation exStateC6b 9 0 0 1).2 = Except.ok
      { id := 4, userId := 9, bookId := 0, status := .PENDING,
        reservedAt := 0, expiresAt := 1 + hours48, fulfilledAt := none } ∧
    ¬ ((1 : Int) + hours48 = 0 + hours48) :=
  ⟨by decide, rfl, rfl, by decide⟩

/-- C6 (amended): with the book present, the duplicate check runs first:
a user with an existing PENDING reservation for the book is rejected as
duplicate even when AVAILABLE copies exist; otherwise the call is
rejected as copy-available when at least one AVAILABLE copy exists;
otherwise a PENDING reservation is inserted with reserved-at equal to the
first clock reading and expires-at equal to the second clock reading plus
48 hours — two separate readings of now, so expires-at can exceed
reserved-at plus 48 hours. -/
theorem C6_create_reservation (S : LibState) (userId bookId : Nat)
    (t1 t2 : Int) (hbook : S.books.contains bookId = true) :
    ((S.reservations.any (fun r => r.userId == userId && r.bookId == bookId &&
        r.status.isPending)) = true →
      create_reservation S userId bookId t1 t2 =
        (S, Except.error ApiError.duplicateReservation)) ∧
    ((S.reservations.any (fun r => r.userId == userId && r.bookId == bookId &&
        r.status.isPending)) = false → 0 < availableCount S bookId →
      create_reservation S userId bookId t1 t2 =
        (S, Except.error ApiError.copyAvailable)) ∧
    ((S.reservations.any (fun r => r.userId == userId && r.bookId == bookId &&
        r.status.isPending)) = false → availableCount S bookId = 0 →
      create_reservation S userId bookId t1 t2 =
        ({ S with
            reservations := S.reservations ++
              [{ id := S.nextId, userId := userId, bookId := bookId,
                 status := .PENDING, reservedAt := t1,
                 expiresAt := t2 + hours48, fulfilledAt := none }],
            nextId := S.nextId + 1 },
         Except.ok
           { id := S.nextId, userId := userId, bookId := bookId,
             status := .PENDING, reservedAt := t1,
             expiresAt := t2 + hours48, fulfilledAt := none })) := by
  unfold create_reservation
  rw [if_pos hbook]
  refine ⟨?_, ?_, ?_⟩
  · intro hdup
    rw [if_pos hdup]
  · intro hdup hav
    rw [if_neg (by rw [hdup]; exact Bool.false_ne_true), if_pos hav]
  · intro hdup hav
    rw [if_neg (by rw [hdup]; exact Bool.false_ne_true),
      if_neg (by omega)]

theorem C6_witness :
    create_reservation exStateC6b 9 0 0 1 =
      ({ exStateC6b with
          reservations := exStateC6b.reservations ++
            [{ id := 4, userId := 9, bookId := 0, status := .PENDING,
               reservedAt := 0, expiresAt := 1 + hours48, fulfilledAt := none }],
          nextId := 5 },
       Except.ok
         { id := 4, userId := 9, bookId := 0, status := .PENDING,
           reservedAt := 0, expiresAt := 1 + hours48, fulfilledAt := none }) := by
  have h := C6_create_reservation exStateC6b 9 0 0 1 (by decide)
  exact h.2.2 (by decide) (by decide)

/-- A PENDING pickup created exactly 48 hours before the sweep time. -/
def exRecBoundary : BorrowRecord :=
  { id := 1, copyId := 0, userId := 7, borrowedAt := 0, dueDate := 10,
    returnedAt := none, status := .PENDING, createdAt := 0 }

def exStateC7 : LibState :=
  { books := [0], copies := [exCopy0], records := [exRecBoundary],
    reservations := [], cartItems := [], nextId := 2 }

/-- C7, counterexample: with now = 48h after creation, the record's
created-at equals now − 48h exactly — it is not strictly older than the
threshold, so the claim says it is untouched, yet the sweep cancels it
(the source comparison is created_at <= now − 48h). -/
theorem C7_counterexample :
    exRecBoundary.createdAt = (172800 : Int) - hours48 ∧
    ¬ (exRecBoundary.createdAt < (172800 : Int) - hours48) ∧
    (check_expired_pickups exStateC7 172800).records =
      [{ exRecBoundary with status := BorrowStatus.CANCELLED }] :=
  ⟨by decide, by decide, rfl⟩

/-- C7 (amended): a sweep at time now cancels exactly the PENDING records
whose created-at is at most now − 48h (at-or-past the boundary, not
strictly older), sets exactly the copies referenced by such a record to
AVAILABLE, leaves all other records and copies and everything else
unchanged, and a run with zero matches returns the state unchanged
without error. -/
theorem C7_sweep (S : LibState) (now : Int)
    (hndR : (S.records.map fun r => r.id).Nodup) :
    (check_expired_pickups S now).records = S.records.map
      (fun r => if sweepExpired r (now - hours48) then
        { r with status := BorrowStatus.CANCELLED } else r) ∧
    (check_expired_pickups S now).copies = S.copies.map
      (fun c => if S.records.any
          (fun r => sweepExpired r (now - hours48) && r.copyId == c.id) then
        { c with status := CopyStatus.AVAILABLE } else c) ∧
    (check_expired_pickups S now).reservations = S.reservations ∧
    (check_expired_pickups S now).cartItems = S.cartItems ∧
    (check_expired_pickups S now).books = S.books ∧
    (check_expired_pickups S now).nextId = S.nextId ∧
    ((S.records.filter (fun r => sweepExpired r (now - hours48))).isEmpty = true →
      check_expired_pickups S now = S) := by
  have hframe : (check_expired_pickups S now).books = S.books ∧
      (check_expired_pickups S now).reservations = S.reservations ∧
      (check_expired_pickups S now).cartItems = S.cartItems ∧
      (check_expired_pickups S now).nextId = S.nextId := by
    unfold check_expired_pickups
    by_cases hE : (S.records.filter (fun r => sweepExpired r (now - hours48))).isEmpty
    · rw [if_pos hE]
      exact ⟨rfl, rfl, rfl, rfl⟩
    · rw [if_neg hE]
      exact sweep_foldl_frame _ S
  refine ⟨check_expired_pickups_records S now hndR,
    check_expired_pickups_copies S now,
    hframe.2.1, hframe.2.2.1, hframe.1, hframe.2.2.2, ?_⟩
  intro hE
  unfold check_expired_pickups
  rw [if_pos hE]

theorem C7_witness :
    (check_expired_pickups exStateC7 172800).records = exStateC7.records.map
      (fun r => if sweepExpired r ((172800 : Int) - hours48) then
        { r with status := BorrowStatus.CANCELLED } else r) ∧
    (check_expired_pickups exStateC7 172800).reservations =
      exStateC7.reservations := by
  have h := C7_sweep exStateC7 172800 (by decide)
  exact ⟨h.1, h.2.2.1⟩

theorem copy_set_available_self (c : BookCopy)
    (h : c.status = CopyStatus.AVAILABLE) :
    { c with status := CopyStatus.AVAILABLE } = c := by
  obtain ⟨i, b, bc, st⟩ := c
  have h2 : st = CopyStatus.AVAILABLE := h
  rw [h2]

/-- A LOST copy referenced by an expired PENDING pickup. -/
def exStateC8 : LibState :=
  { books := [0],
    copies := [{ id := 0, bookId := 0, barcode := 100, status := .LOST }],
    records := [exRecBoundary], reservations := [], cartItems := [],
    nextId := 2 }

/-- C8, counterexample: the claim says a LOST copy is left LOST by the
release paths, but the sweep sets the LOST copy of an expired PENDING
pickup to AVAILABLE (the UPDATE carries no status guard). -/
theorem C8_counterexample :
    exStateC8.copies =
      [{ id := 0, bookId := 0, barcode := 100, status := CopyStatus.LOST }] ∧
    (check_expired_pickups exStateC8 200000).copies =
      [{ id := 0, bookId := 0, barcode := 100, status := CopyStatus.AVAILABLE }] :=
  ⟨rfl, rfl⟩

/-- C8 (amended): the release paths set the copy status to AVAILABLE
unconditionally.  Releasing an already-AVAILABLE copy is a no-op that
does not error (the record-return succeeds and the copies table is
bitwise unchanged); but a LOST copy is likewise set to AVAILABLE, both by
the record-return path and by the sweep — there is no LOST guard. -/
theorem C8_release :
    (∀ (S : LibState) (recordId : Nat) (now : Int) (r0 : BorrowRecord),
      S.records.find? (fun r => r.id == recordId) = some r0 →
      r0.status ≠ BorrowStatus.RETURNED →
      (∀ c ∈ S.copies, c.id = r0.copyId → c.status = CopyStatus.AVAILABLE) →
      (return_book_by_record S recordId now).2 = Except.ok () ∧
      (return_book_by_record S recordId now).1.copies = S.copies) ∧
    (∀ (S : LibState) (recordId : Nat) (now : Int) (r0 : BorrowRecord),
      S.records.find? (fun r => r.id == recordId) = some r0 →
      r0.status ≠ BorrowStatus.RETURNED →
      ∀ c ∈ S.copies, c.id = r0.copyId →
        ∃ c2 ∈ (return_book_by_record S recordId now).1.copies,
          c2.id = c.id ∧ c2.status = CopyStatus.AVAILABLE) ∧
    (∀ (S : LibState) (now : Int), ∀ c ∈ S.copies,
      (∃ r ∈ S.records, sweepExpired r (now - hours48) = true ∧ r.copyId = c.id) →
      ∃ c2 ∈ (check_expired_pickups S now).copies,
        c2.id = c.id ∧ c2.status = CopyStatus.AVAILABLE) := by
  refine ⟨?_, ?_, ?_⟩
  · intro S recordId now r0 hf hnr hav
    unfold return_book_by_record
    rw [hf]
    dsimp only
    have hret : r0.status.isReturned = false := by
      cases hv : r0.status.isReturned
      · rfl
      · exact absurd (BorrowStatus.isReturned_iff.mp hv) hnr
    rw [if_neg (by rw [hret]; exact Bool.false_ne_true)]
    refine ⟨rfl, ?_⟩
    dsimp only
    unfold updateCopy
    have hmapid : S.copies.map (fun c => if c.id = r0.copyId then
        { c with status := CopyStatus.AVAILABLE } else c) =
        S.copies.map (fun c => c) := by
      refine List.map_congr_left ?_
      intro c hc
      by_cases hcid : c.id = r0.copyId
      · rw [if_pos hcid]
        exact copy_set_available_self c (hav c hc hcid)
      · rw [if_neg hcid]
    rw [hmapid, List.map_id']
  · intro S recordId now r0 hf hnr c hc hcid
    unfold return_book_by_record
    rw [hf]
    dsimp only
    have hret : r0.status.isReturned = false := by
      cases hv : r0.status.isReturned
      · rfl
      · exact absurd (BorrowStatus.isReturned_iff.mp hv) hnr
    rw [if_neg (by rw [hret]; exact Bool.false_ne_true)]
    dsimp only
    refine ⟨{ c with status := CopyStatus.AVAILABLE }, ?_, rfl, rfl⟩
    unfold updateCopy
    rw [List.mem_map]
    exact ⟨c, hc, by rw [if_pos hcid]⟩
  · intro S now c hc hex
    obtain ⟨r, hrmem, hq, hrc⟩ := hex
    rw [check_expired_pickups_copies S now]
    have hany : (S.records.any
        (fun r => sweepExpired r (now - hours48) && r.copyId == c.id)) = true := by
      rw [List.any_eq_true]
      refine ⟨r, hrmem, ?_⟩
      rw [Bool.and_eq_true]
      exact ⟨hq, by simp [hrc]⟩
    refine ⟨{ c with status := CopyStatus.AVAILABLE }, ?_, rfl, rfl⟩
    rw [List.mem_map]
    exact ⟨c, hc, by rw [if_pos hany]⟩

theorem C8_witness :
    ((return_book_by_record exStateC5 1 50).2 = Except.ok () ∧
      (return_book_by_record exStateC5 1 50).1.copies = exStateC5.copies) ∧
    (∃ c2 ∈ (check_expired_pickups exStateC8 200000).copies,
      c2.id = 0 ∧ c2.status = CopyStatus.AVAILABLE) := by
  have h := C8_release
  refine ⟨h.1 exStateC5 1 50 exRecCancelled rfl (by decide) (by decide), ?_⟩
  exact h.2.2 exStateC8 200000
    { id := 0, bookId := 0, barcode := 100, status := CopyStatus.LOST }
    (by decide) ⟨exRecBoundary, by decide, by decide, rfl⟩

theorem checkout_fold_newRecs (userId : Nat) (dueDate now : Int) :
    ∀ (items : List Nat) (acc : CheckoutAcc),
      (∀ r ∈ acc.newRecs, r.status = BorrowStatus.PENDING ∧
        r.dueDate = dueDate ∧ r.createdAt = now) →
      ∀ r ∈ (items.foldl (checkoutStep userId dueDate now) acc).newRecs,
        r.status = BorrowStatus.PENDING ∧ r.dueDate = dueDate ∧ r.createdAt = now
  | [], _, hacc => hacc
  | i :: items, acc, hacc => by
    rw [List.foldl_cons]
    refine checkout_fold_newRecs userId dueDate now items _ ?_
    unfold checkoutStep
    cases hfind : acc.state.copies.find?
        (fun c => c.bookId == i && c.status.isAvailable) with
    | none => exact hacc
    | some c =>
      dsimp only
      intro r hr
      rw [List.mem_append] at hr
      cases hr with
      | inl hin => exact hacc r hin
      | inr hin =>
        rw [List.mem_singleton] at hin
        rw [hin]
        exact ⟨rfl, rfl, rfl⟩

def exRec9 : BorrowRecord :=
  { id := 10, copyId := 0, userId := 7, borrowedAt := 0, dueDate := -5,
    returnedAt := none, status := .ACTIVE, createdAt := 0 }

/-- C9, counterexample: a walk-in borrow at now = 0 with a requested
due-date of −5 (in the past) succeeds, and the created loan's due-date is
strictly before its creation time — the request due-date is not validated
against now anywhere. -/
theorem C9_counterexample :
    (borrow_book exCart3 0 7 (-5) 0).2 = Except.ok exRec9 ∧
    exRec9.dueDate < exRec9.createdAt ∧
    exRec9.dueDate < exRec9.borrowedAt :=
  ⟨rfl, by decide, by decide⟩

/-- C9 (amended): the walk-in borrow creates an ACTIVE loan and checkout
creates PENDING loans; the due-date is taken from the request without any
comparison against now, so a past due-date is accepted; only checkout's
default due-date, used when the request carries none, is now + 14 days,
which is strictly after now. -/
theorem C9_loan_creation :
    (∀ (S : LibState) (copyId userId : Nat) (dueDate now : Int)
        (S2 : LibState) (rec2 : BorrowRecord),
      borrow_book S copyId userId dueDate now = (S2, Except.ok rec2) →
      rec2.status = BorrowStatus.ACTIVE ∧ rec2.dueDate = dueDate ∧
      rec2.borrowedAt = now ∧ rec2.createdAt = now) ∧
    (∀ (S : LibState) (userId : Nat) (dd : Option Int) (now : Int)
        (S2 : LibState) (recs : List BorrowRecord),
      checkout_cart S userId dd now = (S2, Except.ok recs) →
      ∀ r ∈ recs, r.status = BorrowStatus.PENDING ∧
        r.dueDate = dd.getD (now + days14) ∧ r.createdAt = now) ∧
    (∀ now : Int, now < now + days14) := by
  refine ⟨?_, ?_, ?_⟩
  · intro S copyId userId dueDate now S2 rec2 h
    unfold borrow_book at h
    cases hfc : S.copies.find? (fun c => c.id == copyId) with
    | none =>
      rw [hfc] at h
      simp at h
    | some c =>
      rw [hfc] at h
      dsimp only at h
      cases hav : c.status.isAvailable with
      | false =>
        rw [if_neg (by rw [hav]; exact Bool.false_ne_true)] at h
        simp at h
      | true =>
        rw [if_pos hav] at h
        rw [Prod.mk.injEq] at h
        have hr := h.2
        rw [Except.ok.injEq] at hr
        rw [← hr]
        exact ⟨rfl, rfl, rfl, rfl⟩
  · intro S userId dd now S2 recs h
    unfold checkout_cart at h
    by_cases hempty :
        (((S.cartItems.filter (fun it => it.userId == userId)).map
          (fun it => it.bookId)).isEmpty = true)
    · rw [if_pos hempty] at h
      simp at h
    · rw [if_neg hempty] at h
      by_cases hfail :
          ((((S.cartItems.filter (fun it => it.userId == userId)).map
            (fun it => it.bookId)).foldl
            (checkoutStep userId (dd.getD (now + days14)) now)
            { state := S, newRecs := [], failed := [] }).failed.isEmpty = true)
      · rw [if_pos hfail] at h
        rw [Prod.mk.injEq] at h
        have hr := h.2
        rw [Except.ok.injEq] at hr
        rw [← hr]
        exact checkout_fold_newRecs userId (dd.getD (now + days14)) now _ _
          (fun r hr2 => absurd hr2 (List.not_mem_nil r))
      · rw [if_neg hfail] at h
        simp at h
  · intro now
    unfold days14
    omega

theorem C9_witness :
    (exRec9.status = BorrowStatus.ACTIVE ∧ exRec9.dueDate = -5 ∧
      exRec9.borrowedAt = 0 ∧ exRec9.createdAt = 0) ∧
    ((0 : Int) < 0 + days14) := by
  have h := C9_loan_creation
  exact ⟨h.1 exCart3 0 7 (-5) 0 (borrow_book exCart3 0 7 (-5) 0).1 exRec9 rfl,
    h.2.2 0⟩

/-- C10: the librarian fulfill endpoint on a PENDING but expired
reservation first commits the EXPIRED status and then raises, so that
error path changes persistent state; the other error paths (unknown
reservation, non-PENDING status) leave the state unchanged. -/
theorem C10_fulfill_expired_commits (S : LibState) (resId : Nat) (now : Int) :
    (S.reservations.find? (fun r => r.id == resId) = none →
      fulfill_reservation S resId now = (S, Except.error ApiError.notFound)) ∧
    (∀ r0, S.reservations.find? (fun r => r.id == resId) = some r0 →
      r0.status ≠ ReservationStatus.PENDING →
      fulfill_reservation S resId now = (S, Except.error ApiError.cannotFulfill)) ∧
    (∀ r0, S.reservations.find? (fun r => r.id == resId) = some r0 →
      r0.status = ReservationStatus.PENDING → r0.expiresAt < now →
      fulfill_reservation S resId now =
        ({ S with
            reservations := updateReservation S.reservations resId
              (fun r => { r with status := ReservationStatus.EXPIRED }) },
         Except.error ApiError.reservationExpired) ∧
      { r0 with status := ReservationStatus.EXPIRED } ∈
        (fulfill_reservation S resId now).1.reservations) := by
  refine ⟨?_, ?_, ?_⟩
  · intro hf
    unfold fulfill_reservation
    rw [hf]
  · intro r0 hf hnp
    unfold fulfill_reservation
    rw [hf]
    dsimp only
    have hpend : r0.status.isPending = false := by
      cases hv : r0.status.isPending
      · rfl
      · exact absurd (resStatus_isPending_iff.mp hv) hnp
    rw [if_neg (by rw [hpend]; exact Bool.false_ne_true)]
  · intro r0 hf hp hexp
    have hpend : r0.status.isPending = true := resStatus_isPending_iff.mpr hp
    have hexpb : r0.isExpiredAt now = true := by
      unfold Reservation.isExpiredAt
      rw [Bool.and_eq_true]
      exact ⟨hpend, by simpa using hexp⟩
    constructor
    · unfold fulfill_reservation
      rw [hf]
      dsimp only
      rw [if_pos hpend, if_pos hexpb]
    · unfold fulfill_reservation
      rw [hf]
      dsimp only
      rw [if_pos hpend, if_pos hexpb]
      dsimp only
      unfold updateReservation
      rw [List.mem_map]
      refine ⟨r0, List.mem_of_find?_eq_some hf, ?_⟩
      have hid : r0.id = resId := by simpa using List.find?_some hf
      rw [if_pos hid]

theorem C10_witness :
    fulfill_reservation exStateC2 2 100 =
      ({ exStateC2 with
          reservations := updateReservation exStateC2.reservations 2
            (fun r => { r with status := ReservationStatus.EXPIRED }) },
       Except.error ApiError.reservationExpired) ∧
    { exRes1 with status := ReservationStatus.EXPIRED } ∈
      (fulfill_reservation exStateC2 2 100).1.reservations := by
  have h := C10_fulfill_expired_commits exStateC2 2 100
  exact h.2.2 exRes1 rfl (by decide) (by decide)
